import Mathlib

/-!
Shallow embedding of the XDP map accessors of the aya repository:
`DevMap` (src/aya/src/maps/xdp/dev_map.rs) and `XskMap`
(src/aya/src/maps/xdp/xsk_map.rs).

Machine integers are modelled as `Nat` with explicit truncation modulo
`2 ^ 32` where the code serialises a `u32`.  On-the-wire values are byte
lists (little-endian, as on every platform aya targets).  The helpers the
accessors call (`check_bounds`, `check_kv_size`, `fd_or_err`, the `FEATURES`
struct and the two syscall wrappers) live outside the excerpted files; they
are modelled from the spec (§3, §4.1, §4.2, §6) and marked as such.  The
kernel-resident table is an explicit state (`Kernel`) threaded through the
operations, and every operation additionally returns the list of syscalls it
issued, so that "no syscall is performed" claims are expressible.
-/

namespace Aya

instance exceptDecEq {ε α : Type} [DecidableEq ε] [DecidableEq α] :
    DecidableEq (Except ε α) := fun x y =>
  match x, y with
  | .ok a, .ok b =>
    if h : a = b then isTrue (by rw [h]) else isFalse (by intro hc; cases hc; exact h rfl)
  | .ok _, .error _ => isFalse (by intro hc; cases hc)
  | .error _, .ok _ => isFalse (by intro hc; cases hc)
  | .error e, .error f =>
    if h : e = f then isTrue (by rw [h]) else isFalse (by intro hc; cases hc; exact h rfl)

/-- Little-endian interpretation of a byte list as a natural number. -/
def leBytes : List Nat → Nat
  | [] => 0
  | b :: rest => b % 256 + 256 * leBytes rest

/-- Serialisation of a `u32` as four little-endian bytes (truncates mod `2 ^ 32`),
the memory image of the `u32`/`__s32` fields the accessors pass to the syscalls. -/
def u32Bytes (n : Nat) : List Nat :=
  [n % 256, n / 256 % 256, n / 65536 % 256, n / 16777216 % 256]

/-- Modelled from the spec: §3 TableHandle attributes — declared key size, declared
value size, maximum entry count (`bpf_map_def`); `obj` in `MapData`. -/
structure MapObj where
  key_size : Nat
  value_size : Nat
  max_entries : Nat
  deriving DecidableEq

/-- Modelled from the spec: §3 TableHandle — the table's declared shape plus its
transport descriptor, present only once the table has been realized. -/
structure MapData where
  obj : MapObj
  fd : Option Nat
  deriving DecidableEq

/-- The process-wide `FEATURES` capability flags read by `dev_map.rs`.  The source
reads two distinct fields: `devmap_prog_id` (in `new` and `set`) and
`cpumap_prog_id` (in `get`).  Modelled from the spec: §4.2 says the gate is
resolved once per process and immutable, so it is an explicit pure parameter. -/
structure Features where
  devmap_prog_id : Bool
  cpumap_prog_id : Bool
  deriving DecidableEq

/-- The syscall name attached to lookup failures (dev_map.rs line 95). -/
def lookup_call_name : String := "bpf_map_lookup_elem"

/-- The syscall name attached to update failures (dev_map.rs line 153, xsk_map.rs line 66). -/
def update_call_name : String := "bpf_map_update_elem"

/-- The error taxonomy of `MapError` as the accessors produce it.  Variants raised
inside the excerpted files keep their source names (`OutOfBounds`, `KeyNotFound`,
`ProgIdNotSupported`, `SyscallError`); the two raised by the modelled helpers use
the spec's §7 names (`ShapeMismatch`, `HandleUnavailable`). -/
inductive MapError where
  | ShapeMismatch (size expected : Nat) : MapError
  | HandleUnavailable : MapError
  | OutOfBounds (index max_entries : Nat) : MapError
  | KeyNotFound : MapError
  | ProgIdNotSupported : MapError
  | SyscallError (call : String) (io_error : Nat) : MapError
  deriving DecidableEq

/-- Modelled from the spec: §4.1 shape check — compares the table's declared
key/value byte sizes against the accessor's compiled shape (`check_kv_size`). -/
def check_kv_size (expected_key expected_value : Nat) (data : MapData) :
    Except MapError Unit :=
  if data.obj.key_size ≠ expected_key then
    .error (.ShapeMismatch data.obj.key_size expected_key)
  else if data.obj.value_size ≠ expected_value then
    .error (.ShapeMismatch data.obj.value_size expected_value)
  else
    .ok ()

/-- Modelled from the spec: §4.1 index check — compares `index` against the
table's `max_entries`; pure, total, no side effects (`check_bounds`). -/
def check_bounds (data : MapData) (index : Nat) : Except MapError Unit :=
  if data.obj.max_entries ≤ index then
    .error (.OutOfBounds index data.obj.max_entries)
  else
    .ok ()

/-- Modelled from the spec: §4.4 — resolves the table's transport descriptor,
failing with `HandleUnavailable` when the table was never realized (`fd_or_err`). -/
def fd_or_err (data : MapData) : Except MapError Nat :=
  match data.fd with
  | some fd => .ok fd
  | none => .error .HandleUnavailable

/-- Association-list lookup for the kernel-resident table. -/
def assocFind : List (Nat × List Nat) → Nat → Option (List Nat)
  | [], _ => none
  | (k, v) :: rest, key => if k = key then some v else assocFind rest key

/-- Association-list insert/replace for the kernel-resident table. -/
def assocInsert : List (Nat × List Nat) → Nat → List Nat → List (Nat × List Nat)
  | [], key, v => [(key, v)]
  | (k, v0) :: rest, key, v =>
    if k = key then (key, v) :: rest else (k, v0) :: assocInsert rest key v

/-- The kernel side of the transport: the table's stored entries (key ↦ value
bytes) plus error injection for the two syscall primitives (`some e` makes the
primitive fail with os error `e`, modelling transport failure). -/
structure Kernel where
  table : List (Nat × List Nat)
  lookupErr : Option Nat
  updateErr : Option Nat
  deriving DecidableEq

/-- A syscall issued by an accessor operation, recorded for trace claims. -/
inductive Syscall where
  | lookup (fd key flags : Nat) : Syscall
  | update (fd : Nat) (key : Option Nat) (value : List Nat) (flags : Nat) : Syscall
  deriving DecidableEq

/-- Modelled from the spec: §6 lookup primitive
`(descriptor, key_bytes, flags) -> Result<Option<value_bytes>, (errno, io_error)>`;
an absent key yields `none`, a transport failure carries the os error. -/
def bpf_map_lookup_elem (k : Kernel) (fd key flags : Nat) :
    Except Nat (Option (List Nat)) :=
  match k.lookupErr with
  | some e => .error e
  | none =>
    match fd, flags with
    | _, _ => .ok (assocFind k.table key)

/-- Modelled from the spec: §6 update primitive
`(descriptor, key_bytes_or_none, value_bytes, flags) -> Result<(), (errno, io_error)>`;
on success the stored entry at the key is replaced. -/
def bpf_map_update_elem (k : Kernel) (fd : Nat) (key : Option Nat)
    (value : List Nat) (flags : Nat) : Except Nat Kernel :=
  match k.updateErr with
  | some e => .error e
  | none =>
    match fd, flags, key with
    | _, _, some key => .ok { k with table := assocInsert k.table key value }
    | _, _, none => .ok k

/-- The read-side value shape `DevMapValue` of dev_map.rs: target interface index
plus kernel-assigned program id (`0` meaning none). -/
structure DevMapValue where
  ifindex : Nat
  prog_id : Nat
  deriving DecidableEq

/-- A program reference (`ProgramFd`): `raw` is what `as_raw_fd` returns. -/
structure ProgramFd where
  raw : Nat
  deriving DecidableEq

/-- The closure of dev_map.rs lines 77-84: reinterpret a looked-up `bpf_devmap_val`
buffer — `ifindex` from the first four bytes, `prog_id` from the union slot
(bytes four to eight).  A stored value shorter than eight bytes yields id `0`,
matching the zero-initialised lookup buffer of the transport layer. -/
def devmap_decode_extended (bytes : List Nat) : DevMapValue :=
  { ifindex := leBytes (bytes.take 4), prog_id := leBytes ((bytes.drop 4).take 4) }

/-- The closure of dev_map.rs lines 86-91: reinterpret a looked-up `u32` buffer as
a bare interface index; `prog_id` is the constant `0`. -/
def devmap_decode_legacy (bytes : List Nat) : DevMapValue :=
  { ifindex := leBytes (bytes.take 4), prog_id := 0 }

/-- The `DevMap` accessor: `inner` is the borrowed `MapData` handle. -/
structure DevMap where
  data : MapData
  deriving DecidableEq

namespace DevMap

/-- `DevMap::new` (dev_map.rs lines 44-56): checks key/value sizes — against
`bpf_devmap_val` (8 bytes) when `FEATURES.devmap_prog_id` is set, else against
`u32` (4 bytes) — then requires a realized descriptor. -/
def new (F : Features) (map : MapData) : Except MapError DevMap :=
  match (if F.devmap_prog_id then check_kv_size 4 8 map else check_kv_size 4 4 map) with
  | .error e => .error e
  | .ok () =>
    match fd_or_err map with
    | .error e => .error e
    | .ok _fd => .ok { data := map }

/-- `DevMap::len` (dev_map.rs lines 61-63): `max_entries` from the handle. -/
def len (self : DevMap) : Nat :=
  self.data.obj.max_entries

/-- `DevMap::get` (dev_map.rs lines 71-99): bounds check, descriptor resolution,
lookup syscall, then decode — with the extended layout when
`FEATURES.cpumap_prog_id` is set, else the legacy layout.  Also returns the
syscalls issued. -/
def get (F : Features) (self : DevMap) (k : Kernel) (index flags : Nat) :
    Except MapError DevMapValue × List Syscall :=
  match check_bounds self.data index with
  | .error e => (.error e, [])
  | .ok () =>
    match fd_or_err self.data with
    | .error e => (.error e, [])
    | .ok fd =>
      let value :=
        if F.cpumap_prog_id then
          (bpf_map_lookup_elem k fd index flags).map fun v =>
            v.map devmap_decode_extended
        else
          (bpf_map_lookup_elem k fd index flags).map fun v =>
            v.map devmap_decode_legacy
      (match value with
        | .error io_error => .error (.SyscallError lookup_call_name io_error)
        | .ok none => .error .KeyNotFound
        | .ok (some v) => .ok v,
       [.lookup fd index flags])

/-- `DevMap::iter` (dev_map.rs lines 103-105): `(0..self.len()).map(|i| self.get(i, 0))`. -/
def iter (F : Features) (self : DevMap) (k : Kernel) :
    List (Except MapError DevMapValue) :=
  (List.range self.len).map fun i => (get F self k i 0).fst

/-- `DevMap::set` (dev_map.rs lines 126-157): bounds check, descriptor resolution;
with `FEATURES.devmap_prog_id` set, encodes a `bpf_devmap_val` whose union slot
is the program's raw fd or `0` (`unwrap_or_default`); otherwise a present
program is a hard `ProgIdNotSupported` error, and the bare `u32` ifindex is
written.  Returns the result, the kernel state after, and the syscalls issued. -/
def set (F : Features) (self : DevMap) (k : Kernel) (index ifindex : Nat)
    (program : Option ProgramFd) (flags : Nat) :
    Except MapError Unit × Kernel × List Syscall :=
  match check_bounds self.data index with
  | .error e => (.error e, k, [])
  | .ok () =>
    match fd_or_err self.data with
    | .error e => (.error e, k, [])
    | .ok fd =>
      if F.devmap_prog_id then
        let value := u32Bytes ifindex ++ u32Bytes ((program.map fun p => p.raw).getD 0)
        match bpf_map_update_elem k fd (some index) value flags with
        | .error io_error =>
          (.error (.SyscallError update_call_name io_error), k,
           [.update fd (some index) value flags])
        | .ok k2 => (.ok (), k2, [.update fd (some index) value flags])
      else
        if program.isSome then
          (.error .ProgIdNotSupported, k, [])
        else
          let value := u32Bytes ifindex
          match bpf_map_update_elem k fd (some index) value flags with
          | .error io_error =>
            (.error (.SyscallError update_call_name io_error), k,
             [.update fd (some index) value flags])
          | .ok k2 => (.ok (), k2, [.update fd (some index) value flags])

end DevMap

/-- The `XskMap` accessor: `inner` is the borrowed `MapData` handle. -/
structure XskMap where
  data : MapData
  deriving DecidableEq

namespace XskMap

/-- `XskMap::new` (xsk_map.rs lines 36-43): checks key/value sizes against
`u32`/`RawFd` (4 bytes each), then requires a realized descriptor. -/
def new (map : MapData) : Except MapError XskMap :=
  match check_kv_size 4 4 map with
  | .error e => .error e
  | .ok () =>
    match fd_or_err map with
    | .error e => .error e
    | .ok _fd => .ok { data := map }

/-- `XskMap::len` (xsk_map.rs lines 48-50): `max_entries` from the handle. -/
def len (self : XskMap) : Nat :=
  self.data.obj.max_entries

/-- `XskMap::set` (xsk_map.rs lines 60-71): bounds check, descriptor resolution,
then an update syscall writing the socket's raw fd as a 4-byte value. -/
def set (self : XskMap) (k : Kernel) (index value flags : Nat) :
    Except MapError Unit × Kernel × List Syscall :=
  match check_bounds self.data index with
  | .error e => (.error e, k, [])
  | .ok () =>
    match fd_or_err self.data with
    | .error e => (.error e, k, [])
    | .ok fd =>
      match bpf_map_update_elem k fd (some index) (u32Bytes value) flags with
      | .error io_error =>
        (.error (.SyscallError update_call_name io_error), k,
         [.update fd (some index) (u32Bytes value) flags])
      | .ok k2 => (.ok (), k2, [.update fd (some index) (u32Bytes value) flags])

end XskMap


/-! ## Basic lemmas about the byte codec and the kernel table -/

theorem leBytes_u32Bytes (n : Nat) : leBytes (u32Bytes n) = n % 4294967296 := by
  simp only [u32Bytes, leBytes]
  omega

theorem take4_cons (a b c d : Nat) (l : List Nat) :
    List.take 4 (a :: b :: c :: d :: l) = [a, b, c, d] := rfl

theorem drop4_cons (a b c d : Nat) (l : List Nat) :
    List.drop 4 (a :: b :: c :: d :: l) = l := rfl

theorem devmap_decode_extended_encode (d p : Nat) :
    devmap_decode_extended (u32Bytes d ++ u32Bytes p) =
      { ifindex := d % 4294967296, prog_id := p % 4294967296 } := by
  simp only [u32Bytes, List.cons_append, List.nil_append, devmap_decode_extended,
    take4_cons, drop4_cons, leBytes, DevMapValue.mk.injEq]
  omega

theorem devmap_decode_extended_u32 (d : Nat) :
    devmap_decode_extended (u32Bytes d) = { ifindex := d % 4294967296, prog_id := 0 } := by
  simp only [u32Bytes, devmap_decode_extended, take4_cons, drop4_cons, List.take_nil,
    leBytes, DevMapValue.mk.injEq, and_true]
  omega

theorem devmap_decode_legacy_encode (d : Nat) (l : List Nat) :
    devmap_decode_legacy (u32Bytes d ++ l) = { ifindex := d % 4294967296, prog_id := 0 } := by
  simp only [u32Bytes, List.cons_append, List.nil_append, devmap_decode_legacy,
    take4_cons, leBytes, DevMapValue.mk.injEq, and_true]
  omega

theorem devmap_decode_legacy_u32 (d : Nat) :
    devmap_decode_legacy (u32Bytes d) = { ifindex := d % 4294967296, prog_id := 0 } := by
  simp only [u32Bytes, devmap_decode_legacy, take4_cons, leBytes, DevMapValue.mk.injEq, and_true]
  omega

theorem assocFind_insert_self (t : List (Nat × List Nat)) (key : Nat) (v : List Nat) :
    assocFind (assocInsert t key v) key = some v := by
  induction t with
  | nil => simp [assocInsert, assocFind]
  | cons p rest ih =>
    obtain ⟨k0, v0⟩ := p
    by_cases h : k0 = key
    · simp [assocInsert, assocFind, h]
    · simp [assocInsert, assocFind, h, ih]

theorem check_bounds_ok (data : MapData) (index : Nat)
    (h : index < data.obj.max_entries) : check_bounds data index = .ok () := by
  unfold check_bounds
  rw [if_neg (by omega)]

theorem check_bounds_err (data : MapData) (index : Nat)
    (h : data.obj.max_entries ≤ index) :
    check_bounds data index = .error (.OutOfBounds index data.obj.max_entries) := by
  unfold check_bounds
  rw [if_pos h]

theorem fd_or_err_some (data : MapData) (f : Nat) (h : data.fd = some f) :
    fd_or_err data = .ok f := by
  simp [fd_or_err, h]

theorem fd_or_err_none (data : MapData) (h : data.fd = none) :
    fd_or_err data = .error .HandleUnavailable := by
  simp [fd_or_err, h]

/-! ## Sample capability states, handles and kernel states used as concrete inputs -/

/-- Capability state of a kernel supporting program ids in both devmaps and cpumaps. -/
def extendedFeatures : Features := { devmap_prog_id := true, cpumap_prog_id := true }

/-- Capability state of a kernel supporting program ids in devmaps but not cpumaps
(the two probes of the source genuinely can disagree this way). -/
def devmapOnlyFeatures : Features := { devmap_prog_id := true, cpumap_prog_id := false }

/-- Capability state of a legacy kernel with no program-id support at all. -/
def legacyFeatures : Features := { devmap_prog_id := false, cpumap_prog_id := false }

/-- A realized devmap handle of capacity 4 with the extended 8-byte value shape. -/
def sampleDevMap : DevMap :=
  { data := { obj := { key_size := 4, value_size := 8, max_entries := 4 }, fd := some 3 } }

/-- A realized xskmap handle of capacity 4 with the 4-byte value shape. -/
def sampleXskMap : XskMap :=
  { data := { obj := { key_size := 4, value_size := 4, max_entries := 4 }, fd := some 3 } }

/-- A healthy kernel state with an empty table. -/
def emptyKernel : Kernel := { table := [], lookupErr := none, updateErr := none }

/-- A healthy kernel state with extended entries at indices 0 and 2 (spec §8's
iteration scenario: lookups at indices 1 and 3 report the key absent). -/
def populatedKernel : Kernel :=
  { table := [(0, u32Bytes 7 ++ u32Bytes 0), (2, u32Bytes 9 ++ u32Bytes 0)],
    lookupErr := none, updateErr := none }


/-! ## Claim theorems -/

/-- C1: the claim says constructor, get and set all consult the same capability
flag, so that get decodes with the extended 8-byte layout exactly when set
encodes with it.  The code does not: `set` consults `FEATURES.devmap_prog_id`
while `get` consults `FEATURES.cpumap_prog_id` (dev_map.rs line 76).  In the
capability state (devmap_prog_id := true, cpumap_prog_id := false) — a kernel
whose devmaps support program ids but whose cpumaps do not — `set` encodes the
extended 8-byte value carrying the chained program's descriptor 5, yet `get`
run on the very table that `set` produced decodes with the legacy 4-byte layout
and silently reports the program slot as 0; flipping only the cpumap flag (which
`set` never reads) changes `get`'s decoding to extended.  This contradicts the
constructor's own size validation and the union documentation cited in `get`. -/
theorem c1_get_consults_cpumap_flag :
    (DevMap.set devmapOnlyFeatures sampleDevMap emptyKernel 0 42 (some { raw := 5 }) 0).snd.snd =
      [.update 3 (some 0) (u32Bytes 42 ++ u32Bytes 5) 0] ∧
    (u32Bytes 42 ++ u32Bytes 5).length = 8 ∧
    (DevMap.get devmapOnlyFeatures sampleDevMap
      (DevMap.set devmapOnlyFeatures sampleDevMap emptyKernel 0 42 (some { raw := 5 }) 0).snd.fst
      0 0).fst = .ok { ifindex := 42, prog_id := 0 } ∧
    (DevMap.get extendedFeatures sampleDevMap
      (DevMap.set devmapOnlyFeatures sampleDevMap emptyKernel 0 42 (some { raw := 5 }) 0).snd.fst
      0 0).fst = .ok { ifindex := 42, prog_id := 5 } := by
  decide

/-- C3: for every index at or beyond the table's capacity, `DevMap::get`,
`DevMap::set` and `XskMap::set` return `OutOfBounds`, issue no syscall (empty
trace) and leave the kernel-resident table unchanged. -/
theorem c3_out_of_bounds_no_syscall (F : Features) (m : DevMap) (x : XskMap)
    (k : Kernel) (index d v flags : Nat) (prog : Option ProgramFd)
    (hm : m.data.obj.max_entries ≤ index) (hx : x.data.obj.max_entries ≤ index) :
    DevMap.get F m k index flags =
      (.error (.OutOfBounds index m.data.obj.max_entries), []) ∧
    DevMap.set F m k index d prog flags =
      (.error (.OutOfBounds index m.data.obj.max_entries), k, []) ∧
    XskMap.set x k index v flags =
      (.error (.OutOfBounds index x.data.obj.max_entries), k, []) := by
  refine ⟨?_, ?_, ?_⟩
  · simp [DevMap.get, check_bounds_err m.data index hm]
  · simp [DevMap.set, check_bounds_err m.data index hm]
  · simp [XskMap.set, check_bounds_err x.data index hx]

/-- C3 witness at index 9 against the capacity-4 sample handles. -/
theorem c3_out_of_bounds_no_syscall_witness :
    DevMap.get extendedFeatures sampleDevMap emptyKernel 9 0 =
      (.error (.OutOfBounds 9 4), []) ∧
    DevMap.set extendedFeatures sampleDevMap emptyKernel 9 42 none 0 =
      (.error (.OutOfBounds 9 4), emptyKernel, []) ∧
    XskMap.set sampleXskMap emptyKernel 9 6 0 =
      (.error (.OutOfBounds 9 4), emptyKernel, []) :=
  c3_out_of_bounds_no_syscall extendedFeatures sampleDevMap sampleXskMap emptyKernel
    9 42 6 0 none (by decide) (by decide)

/-- C4: on a legacy-only capability (devmap_prog_id reports no extended support),
`DevMap::set` with a valid index on a realized handle and a supplied chained
program returns `ProgIdNotSupported` (the spec's ChainedProgramUnsupported),
issues no update syscall and leaves the kernel table unchanged — the program
reference is a hard error, never silently dropped. -/
theorem c4_legacy_chained_program_rejected (F : Features) (m : DevMap) (k : Kernel)
    (index d flags f : Nat) (p : ProgramFd)
    (hleg : F.devmap_prog_id = false) (hidx : index < m.data.obj.max_entries)
    (hfd : m.data.fd = some f) :
    DevMap.set F m k index d (some p) flags = (.error .ProgIdNotSupported, k, []) := by
  simp [DevMap.set, check_bounds_ok m.data index hidx, fd_or_err_some m.data f hfd, hleg]

/-- C4 witness: legacy capability, valid index 1, chained program with descriptor 5. -/
theorem c4_legacy_chained_program_rejected_witness :
    DevMap.set legacyFeatures sampleDevMap emptyKernel 1 42 (some { raw := 5 }) 0 =
      (.error .ProgIdNotSupported, emptyKernel, []) :=
  c4_legacy_chained_program_rejected legacyFeatures sampleDevMap emptyKernel 1 42 0 3
    { raw := 5 } rfl (by decide) rfl

/-- C7: for every constructed accessor, `DevMap::len` and `XskMap::len` return the
handle's `max_entries`; both are pure total functions of the handle (no kernel
state argument, no error case), so they perform no syscall and cannot fail —
including for a zero-capacity table. -/
theorem c7_len_is_max_entries (m : DevMap) (x : XskMap) :
    DevMap.len m = m.data.obj.max_entries ∧ XskMap.len x = x.data.obj.max_entries :=
  ⟨rfl, rfl⟩

/-- C2: for every valid index and device index, in any capability state, if
`set(index, d, None, 0)` succeeds then `get(index, 0)` on the resulting
(otherwise unmolested) table returns `{ ifindex := d, prog_id := 0 }`.  This
holds in all four combinations of the two probed flags: with `None` the union
slot encodes as 0 under the extended layout, a legacy 4-byte value decoded with
the extended layout reads the zero-initialised remainder of the lookup buffer
as id 0, and an extended value decoded legacy takes its first four bytes. -/
theorem c2_set_get_roundtrip (F : Features) (m : DevMap) (k : Kernel) (index d : Nat)
    (hd : d < 4294967296) (hlk : k.lookupErr = none)
    (hset : (DevMap.set F m k index d none 0).fst = .ok ()) :
    (DevMap.get F m (DevMap.set F m k index d none 0).snd.fst index 0).fst =
      .ok { ifindex := d, prog_id := 0 } := by
  by_cases hb : index < m.data.obj.max_entries
  · have hcb : check_bounds m.data index = .ok () := check_bounds_ok m.data index hb
    rcases hfd : m.data.fd with _ | f
    · exact absurd hset (by simp [DevMap.set, hcb, fd_or_err_none m.data hfd])
    · have hfe : fd_or_err m.data = .ok f := fd_or_err_some m.data f hfd
      rcases hupd : k.updateErr with _ | e
      · have hset_eq : DevMap.set F m k index d none 0 =
            (.ok (),
             { k with table := assocInsert k.table index (if F.devmap_prog_id then u32Bytes d ++ u32Bytes 0 else u32Bytes d) },
             [.update f (some index) (if F.devmap_prog_id then u32Bytes d ++ u32Bytes 0 else u32Bytes d) 0]) := by
          cases hF : F.devmap_prog_id <;>
            simp [DevMap.set, hcb, hfe, hF, bpf_map_update_elem, hupd]
        rw [hset_eq]
        cases hF : F.cpumap_prog_id <;> cases hF2 : F.devmap_prog_id <;>
          simp [DevMap.get, hcb, hfe, bpf_map_lookup_elem, hlk, assocFind_insert_self,
            hF, hF2, Except.map, devmap_decode_extended_encode, devmap_decode_extended_u32,
            devmap_decode_legacy_encode, devmap_decode_legacy_u32, Nat.mod_eq_of_lt hd]
      · have hne : (DevMap.set F m k index d none 0).fst ≠ .ok () := by
          cases hF : F.devmap_prog_id <;>
            simp [DevMap.set, hcb, hfe, hF, bpf_map_update_elem, hupd]
        exact absurd hset hne
  · have hne : (DevMap.set F m k index d none 0).fst ≠ .ok () := by
      simp [DevMap.set, check_bounds_err m.data index (by omega)]
    exact absurd hset hne

/-- C2 witness: extended capability, index 1, device 42, starting from the empty
table; `set` succeeds and `get` reads back `{ ifindex := 42, prog_id := 0 }`. -/
theorem c2_set_get_roundtrip_witness :
    (DevMap.get extendedFeatures sampleDevMap
      (DevMap.set extendedFeatures sampleDevMap emptyKernel 1 42 none 0).snd.fst 1 0).fst =
      .ok { ifindex := 42, prog_id := 0 } :=
  c2_set_get_roundtrip extendedFeatures sampleDevMap emptyKernel 1 42
    (by decide) rfl (by decide)

/-- C5: for a valid index, `DevMap::get` fails with `HandleUnavailable` when the
handle's descriptor was never realized; with `SyscallError` naming the lookup
call and carrying the os error when the lookup transport fails; with
`KeyNotFound` when the lookup reports the key absent; and otherwise returns the
stored value decoded with the codec chosen by the capability flag it consults. -/
theorem c5_get_error_taxonomy (F : Features) (m : DevMap) (k : Kernel)
    (index flags : Nat) (hidx : index < m.data.obj.max_entries) :
    (m.data.fd = none →
      (DevMap.get F m k index flags).fst = .error .HandleUnavailable) ∧
    (∀ f e, m.data.fd = some f → k.lookupErr = some e →
      (DevMap.get F m k index flags).fst = .error (.SyscallError lookup_call_name e)) ∧
    (∀ f, m.data.fd = some f → k.lookupErr = none → assocFind k.table index = none →
      (DevMap.get F m k index flags).fst = .error .KeyNotFound) ∧
    (∀ f bytes, m.data.fd = some f → k.lookupErr = none →
      assocFind k.table index = some bytes →
      (DevMap.get F m k index flags).fst =
        .ok (if F.cpumap_prog_id then devmap_decode_extended bytes
             else devmap_decode_legacy bytes)) := by
  have hcb : check_bounds m.data index = .ok () := check_bounds_ok m.data index hidx
  refine ⟨fun hfd => ?_, fun f e hfd hle => ?_, fun f hfd hle hfind => ?_,
    fun f bytes hfd hle hfind => ?_⟩
  · simp [DevMap.get, hcb, fd_or_err_none m.data hfd]
  · cases hF : F.cpumap_prog_id <;>
      simp [DevMap.get, hcb, fd_or_err_some m.data f hfd, bpf_map_lookup_elem, hle,
        hF, Except.map]
  · cases hF : F.cpumap_prog_id <;>
      simp [DevMap.get, hcb, fd_or_err_some m.data f hfd, bpf_map_lookup_elem, hle,
        hfind, hF, Except.map]
  · cases hF : F.cpumap_prog_id <;>
      simp [DevMap.get, hcb, fd_or_err_some m.data f hfd, bpf_map_lookup_elem, hle,
        hfind, hF, Except.map]

/-- C5 witness: valid index 0 against the empty table reports `KeyNotFound`. -/
theorem c5_get_error_taxonomy_witness :
    (DevMap.get extendedFeatures sampleDevMap emptyKernel 0 0).fst =
      .error .KeyNotFound :=
  (c5_get_error_taxonomy extendedFeatures sampleDevMap emptyKernel 0 0
    (by decide)).2.2.1 3 rfl rfl rfl

/-- C6: `DevMap::iter` yields exactly `len()` results, the i-th element being the
result of an independent `get(i, 0)` call (so per-index failures appear as the
corresponding `Err` element without terminating the sequence), and a
zero-capacity table yields the empty sequence. -/
theorem c6_iter_indexwise (F : Features) (m : DevMap) (k : Kernel) :
    (DevMap.iter F m k).length = DevMap.len m ∧
    (∀ i, i < DevMap.len m →
      (DevMap.iter F m k)[i]? = some (DevMap.get F m k i 0).fst) ∧
    (DevMap.len m = 0 → DevMap.iter F m k = []) := by
  refine ⟨by simp [DevMap.iter], fun i hi => ?_, fun h => by unfold DevMap.iter; rw [h]; simp⟩
  simp [DevMap.iter, List.getElem?_range, hi]

/-- C6 witness: the spec §8 scenario — capacity 4, entries stored at indices 0 and
2, lookups at 1 and 3 finding no key — yields exactly four results in index
order, `Err KeyNotFound` appearing at the missing indices without ending the
sequence. -/
theorem c6_iter_indexwise_witness :
    (DevMap.iter extendedFeatures sampleDevMap populatedKernel).length = 4 ∧
    (DevMap.iter extendedFeatures sampleDevMap populatedKernel)[1]? =
      some (.error .KeyNotFound) ∧
    DevMap.iter extendedFeatures sampleDevMap populatedKernel =
      [.ok { ifindex := 7, prog_id := 0 }, .error .KeyNotFound,
       .ok { ifindex := 9, prog_id := 0 }, .error .KeyNotFound] := by
  have h := c6_iter_indexwise extendedFeatures sampleDevMap populatedKernel
  exact ⟨h.1, (h.2.1 1 (by decide)).trans (by decide), by decide⟩

/-- C8: whenever `get` decodes with the legacy 4-byte layout (the capability flag
it consults reports no extended support), every successful result has
`prog_id = 0` and is exactly the legacy decoding of the stored bytes: the
device index read from the first four bytes and no program identifier. -/
theorem c8_legacy_decode_prog_id_zero (F : Features) (m : DevMap) (k : Kernel)
    (index flags : Nat) (v : DevMapValue)
    (hleg : F.cpumap_prog_id = false)
    (hok : (DevMap.get F m k index flags).fst = .ok v) :
    v.prog_id = 0 ∧
    ∃ bytes, assocFind k.table index = some bytes ∧ v = devmap_decode_legacy bytes := by
  by_cases hb : index < m.data.obj.max_entries
  · have hcb : check_bounds m.data index = .ok () := check_bounds_ok m.data index hb
    rcases hfd : m.data.fd with _ | f
    · exact absurd hok (by simp [DevMap.get, hcb, fd_or_err_none m.data hfd])
    · have hfe : fd_or_err m.data = .ok f := fd_or_err_some m.data f hfd
      rcases hle : k.lookupErr with _ | e
      · rcases hfind : assocFind k.table index with _ | bytes
        · exact absurd hok (by
            simp [DevMap.get, hcb, hfe, bpf_map_lookup_elem, hle, hfind, hleg, Except.map])
        · have hv : devmap_decode_legacy bytes = v := by
            have := hok
            simp [DevMap.get, hcb, hfe, bpf_map_lookup_elem, hle, hfind, hleg,
              Except.map] at this
            exact this
          exact ⟨by rw [← hv]; rfl, ⟨bytes, hfind ▸ rfl, hv.symm⟩⟩
      · exact absurd hok (by
          simp [DevMap.get, hcb, hfe, bpf_map_lookup_elem, hle, hleg, Except.map])
  · exact absurd hok (by
      simp [DevMap.get, check_bounds_err m.data index (by omega)])

/-- C8 witness: legacy decoding of the extended entry stored at index 0 of the
populated sample table returns its first four bytes as the ifindex and id 0. -/
theorem c8_legacy_decode_prog_id_zero_witness :
    (7 : Nat) % 4294967296 = 7 ∧
    ({ ifindex := 7, prog_id := 0 } : DevMapValue).prog_id = 0 ∧
    ∃ bytes, assocFind populatedKernel.table 0 = some bytes ∧
      ({ ifindex := 7, prog_id := 0 } : DevMapValue) = devmap_decode_legacy bytes := by
  have h := c8_legacy_decode_prog_id_zero devmapOnlyFeatures sampleDevMap populatedKernel
    0 0 { ifindex := 7, prog_id := 0 } rfl (by decide)
  exact ⟨by decide, h.1, h.2⟩

/-- C9: under the extended encoding, `DevMap::set` on a valid index issues exactly
one update syscall whose value is the 8-byte `bpf_devmap_val` image — the
device index in the first four bytes and, in the union slot, the program's raw
descriptor when one is supplied or 0 (`unwrap_or_default`) when it is absent —
and decoding that image reads back exactly those two fields. -/
theorem c9_extended_encoding_fields (F : Features) (m : DevMap) (k : Kernel)
    (index d flags f : Nat) (program : Option ProgramFd)
    (hext : F.devmap_prog_id = true) (hidx : index < m.data.obj.max_entries)
    (hfd : m.data.fd = some f) (hd : d < 4294967296)
    (hslot : ((program.map fun p => p.raw).getD 0) < 4294967296) :
    (DevMap.set F m k index d program flags).snd.snd =
      [.update f (some index)
        (u32Bytes d ++ u32Bytes ((program.map fun p => p.raw).getD 0)) flags] ∧
    devmap_decode_extended
        (u32Bytes d ++ u32Bytes ((program.map fun p => p.raw).getD 0)) =
      { ifindex := d, prog_id := (program.map fun p => p.raw).getD 0 } := by
  constructor
  · have hcb : check_bounds m.data index = .ok () := check_bounds_ok m.data index hidx
    have hfe : fd_or_err m.data = .ok f := fd_or_err_some m.data f hfd
    rcases hupd : k.updateErr with _ | e <;>
      simp [DevMap.set, hcb, hfe, hext, bpf_map_update_elem, hupd]
  · rw [devmap_decode_extended_encode, Nat.mod_eq_of_lt hd, Nat.mod_eq_of_lt hslot]

/-- C9 witness: valid index 1, device 42, chained program with raw descriptor 5 —
the update value is the two serialised fields and decodes back to them. -/
theorem c9_extended_encoding_fields_witness :
    (DevMap.set devmapOnlyFeatures sampleDevMap emptyKernel 1 42 (some { raw := 5 }) 0).snd.snd =
      [.update 3 (some 1) (u32Bytes 42 ++ u32Bytes 5) 0] ∧
    devmap_decode_extended (u32Bytes 42 ++ u32Bytes 5) = { ifindex := 42, prog_id := 5 } :=
  c9_extended_encoding_fields devmapOnlyFeatures sampleDevMap emptyKernel 1 42 0 3
    (some { raw := 5 }) rfl (by decide) rfl (by decide) (by decide)

/-- C10: constructing a `DevMap` or `XskMap` accessor succeeds exactly when the
handle's declared key/value sizes match the compiled shape (for `DevMap`, the
shape selected by the capability flag) and the transport descriptor was
realized; and a successfully constructed accessor holds precisely the handle it
was given, whose shapes therefore matched and whose descriptor existed at
construction time. -/
theorem c10_new_validates_shapes_and_fd (F : Features) (d : MapData) :
    ((∃ a, DevMap.new F d = .ok a) ↔
      ((if F.devmap_prog_id then d.obj.key_size = 4 ∧ d.obj.value_size = 8
        else d.obj.key_size = 4 ∧ d.obj.value_size = 4) ∧ d.fd.isSome = true)) ∧
    (∀ a, DevMap.new F d = .ok a → a.data = d) ∧
    ((∃ a, XskMap.new d = .ok a) ↔
      (d.obj.key_size = 4 ∧ d.obj.value_size = 4 ∧ d.fd.isSome = true)) ∧
    (∀ a, XskMap.new d = .ok a → a.data = d) := by
  refine ⟨⟨fun hex => ?_, fun hyp => ?_⟩, fun a ha => ?_, ⟨fun hex => ?_, fun hyp => ?_⟩,
    fun a ha => ?_⟩
  · obtain ⟨a, ha⟩ := hex
    cases hF : F.devmap_prog_id <;>
      rcases hfd : d.fd with _ | f <;>
      by_cases h1 : d.obj.key_size = 4 <;>
      by_cases h2 : d.obj.value_size = 8 <;>
      by_cases h3 : d.obj.value_size = 4 <;>
      simp_all [DevMap.new, check_kv_size, fd_or_err]
  · obtain ⟨⟨h1, h2⟩, h3⟩ : (d.obj.key_size = 4 ∧
        d.obj.value_size = (if F.devmap_prog_id then 8 else 4)) ∧ d.fd.isSome = true := by
      rcases hyp with ⟨hs, h3⟩
      cases hF : F.devmap_prog_id <;> simp_all
    rcases hfd : d.fd with _ | f
    · rw [hfd] at h3; cases h3
    · refine ⟨{ data := d }, ?_⟩
      cases hF : F.devmap_prog_id <;>
        simp_all [DevMap.new, check_kv_size, fd_or_err]
  · rcases hfd : d.fd with _ | f <;>
      cases hF : F.devmap_prog_id <;>
      by_cases h1 : d.obj.key_size = 4 <;>
      by_cases h2 : d.obj.value_size = 8 <;>
      by_cases h3 : d.obj.value_size = 4 <;>
      simp_all [DevMap.new, check_kv_size, fd_or_err] <;>
      exact (congrArg DevMap.data ha).symm
  · obtain ⟨a, ha⟩ := hex
    rcases hfd : d.fd with _ | f <;>
      by_cases h1 : d.obj.key_size = 4 <;>
      by_cases h3 : d.obj.value_size = 4 <;>
      simp_all [XskMap.new, check_kv_size, fd_or_err]
  · rcases hyp with ⟨h1, h3, hfds⟩
    rcases hfd : d.fd with _ | f
    · rw [hfd] at hfds; cases hfds
    · exact ⟨{ data := d }, by simp_all [XskMap.new, check_kv_size, fd_or_err]⟩
  · rcases hfd : d.fd with _ | f <;>
      by_cases h1 : d.obj.key_size = 4 <;>
      by_cases h3 : d.obj.value_size = 4 <;>
      simp_all [XskMap.new, check_kv_size, fd_or_err] <;>
      exact (congrArg XskMap.data ha).symm

/-- C10 witness: the sample extended devmap handle (shape 4/8, realized fd) and
the sample xskmap handle (shape 4/4, realized fd) both construct. -/
theorem c10_new_validates_shapes_and_fd_witness :
    (∃ a, DevMap.new extendedFeatures sampleDevMap.data = .ok a) ∧
    (∃ a, XskMap.new sampleXskMap.data = .ok a) :=
  ⟨(c10_new_validates_shapes_and_fd extendedFeatures sampleDevMap.data).1.mpr (by decide),
   (c10_new_validates_shapes_and_fd extendedFeatures sampleXskMap.data).2.2.1.mpr (by decide)⟩

end Aya
